import Mathlib

/-!
Verification of the BTSE SDK order-book engine (`btse_sdk/orderbook_cache.py`)
and the websocket send path (`btse_sdk/ws.py`), as a shallow embedding in Lean.

Modelling conventions:
* Python `float` prices/sizes are modelled as exact rationals (`ℚ`); the string
  arguments of `_apply_levels` are parsed by `parseRat`, which models Python's
  `float()` on plain decimal literals (optional sign, digits, optional decimal
  point).  A parse failure (Python `ValueError`) makes the operation return
  `none`.
* A Python `dict` is modelled as an insertion-ordered association list with
  unique keys; `dictSet` overwrites in place (keeping the original position,
  as Python dicts do) or appends, and `dictPop` removes the key.
* `Option` on message fields models `dict.get` returning `None`/absence;
  `Msg.data = none` models a message whose `data` field is absent or not a
  dict.
-/

/-- Parse a list of decimal digit characters as a natural number. -/
def digitsToNat (ds : List Char) : Nat :=
  ds.foldl (fun a c => a * 10 + (c.toNat - 48)) 0

/-- Model of Python `float(s)` on plain decimal literals, as an exact
rational: optional `-`/`+` sign, integer digits, optional `.` and fraction
digits; at least one digit overall.  Other inputs (exponents, `inf`, spaces)
return `none`, modelling a raised `ValueError`. -/
def parseRat (s : String) : Option ℚ :=
  let cs := s.toList
  let signAndRest : Bool × List Char :=
    match cs with
    | '-' :: rest => (true, rest)
    | '+' :: rest => (false, rest)
    | _ => (false, cs)
  let neg := signAndRest.1
  let body := signAndRest.2
  let intPart := body.takeWhile Char.isDigit
  let rest := body.dropWhile Char.isDigit
  match rest with
  | [] =>
      if intPart.isEmpty then none
      else
        let mag : ℚ := (digitsToNat intPart : ℚ)
        some (if neg then -mag else mag)
  | '.' :: frac =>
      if frac.all Char.isDigit && !(intPart.isEmpty && frac.isEmpty) then
        let mag : ℚ :=
          (digitsToNat intPart : ℚ) + (digitsToNat frac : ℚ) / (10 ^ frac.length)
        some (if neg then -mag else mag)
      else none
  | _ => none

/-- A price→size book side, modelling a Python `dict` as an insertion-ordered
association list (keys unique in every reachable state). -/
abbrev Book := List (ℚ × ℚ)

/-- `book[price] = size`: overwrite the first entry with this key in place,
or append a new entry — exactly a Python dict assignment. -/
def dictSet : Book → ℚ → ℚ → Book
  | [], p, v => [(p, v)]
  | (q, w) :: rest, p, v =>
      if q = p then (p, v) :: rest else (q, w) :: dictSet rest p v

/-- `book.pop(price, None)`: drop the entry with this key (a dict has at
most one); absent keys are a no-op. -/
def dictPop : Book → ℚ → Book
  | [], _ => []
  | e :: rest, p => if e.1 = p then dictPop rest p else e :: dictPop rest p

/-- `book[price]` lookup (first matching entry; `0` for an absent key, which
never occurs on the keys the code reads). -/
def dictGet : Book → ℚ → ℚ
  | [], _ => 0
  | e :: rest, p => if e.1 = p then e.2 else dictGet rest p

/-- The keys of a book side. -/
def dictKeys (book : Book) : List ℚ := book.map Prod.fst

/-- `Level` from `orderbook_cache.py`: an ephemeral `{price, size}` pair
produced by the read views. -/
structure Level where
  price : ℚ
  size : ℚ
deriving DecidableEq, Repr

/-- The `data` object of an inbound OSS message:
`{symbol?, type?, bids?, asks?, seqNum?, prevSeqNum?}`. -/
structure MsgData where
  symbol : Option String
  type : Option String
  bids : Option (List (String × String))
  asks : Option (List (String × String))
  seqNum : Option Int
  prevSeqNum : Option Int
deriving DecidableEq, Repr

/-- An inbound message `{topic, data}`; `data = none` models an absent or
non-dict `data` field. -/
structure Msg where
  topic : String
  data : Option MsgData
deriving DecidableEq, Repr

/-- The mutable state of `OSSOrderBookCache`. -/
structure OSSOrderBookCache where
  symbol : String
  bids : Book
  asks : Book
  seq_num : Option Int
  prev_seq_num : Option Int
  out_of_sync : Bool
deriving DecidableEq, Repr

/-- `OSSOrderBookCache.__init__(symbol)`. -/
def OSSOrderBookCache.init (symbol : String) : OSSOrderBookCache :=
  { symbol := symbol, bids := [], asks := [], seq_num := none,
    prev_seq_num := none, out_of_sync := false }

/-- One iteration of `_apply_levels`: parse price and size; size `0` removes
the key, otherwise insert/overwrite. `none` models a parse `ValueError`. -/
def applyLevel (book : Book) (lvl : String × String) : Option Book :=
  match parseRat lvl.1, parseRat lvl.2 with
  | some price, some size =>
      if size = 0 then some (dictPop book price) else some (dictSet book price size)
  | _, _ => none

/-- `OSSOrderBookCache._apply_levels`: fold `applyLevel` over the level list. -/
def applyLevels (book : Book) (lvls : List (String × String)) : Option Book :=
  match lvls with
  | [] => some book
  | l :: rest =>
      match applyLevel book l with
      | some b => applyLevels b rest
      | none => none

/-- `OSSOrderBookCache._update_seq(seq, prev_seq)`. -/
def OSSOrderBookCache._update_seq (s : OSSOrderBookCache)
    (seq prev_seq : Option Int) : OSSOrderBookCache :=
  match seq with
  | none => s
  | some sq =>
      let oos :=
        match s.seq_num, prev_seq with
        | some held, some p => if p ≠ held then true else s.out_of_sync
        | _, _ => s.out_of_sync
      { s with out_of_sync := oos, prev_seq_num := prev_seq, seq_num := some sq }

/-- `OSSOrderBookCache.reset()`. -/
def OSSOrderBookCache.reset (s : OSSOrderBookCache) : OSSOrderBookCache :=
  { s with bids := [], asks := [], seq_num := none, prev_seq_num := none,
           out_of_sync := false }

/-- Substring containment, modelling Python `needle in hay`. -/
def containsSub (hay needle : String) : Bool :=
  hay.toList.tails.any (fun t => needle.toList.isPrefixOf t)

/-- The topic-relevance test of `process_message`:
`"update:" in topic or "snapshotL1:" in topic`. -/
def relevantTopic (topic : String) : Bool :=
  containsSub topic "update:" || containsSub topic "snapshotL1:"

/-- The symbol guard of `process_message`:
`if symbol and symbol != self.symbol: return` — note Python truthiness, so an
empty-string symbol never triggers the guard. -/
def symbolMismatch (s : OSSOrderBookCache) (d : MsgData) : Bool :=
  match d.symbol with
  | some sy => !(sy = "") && !(sy = s.symbol)
  | none => false

/-- The snapshot branch of `process_message`: `reset()` then apply levels
into the cleared books, then `_update_seq`. -/
def applySnapshotMsg (s : OSSOrderBookCache) (d : MsgData) :
    Option OSSOrderBookCache :=
  let s1 := s.reset
  match applyLevels s1.bids (d.bids.getD []), applyLevels s1.asks (d.asks.getD []) with
  | some nb, some na =>
      some (OSSOrderBookCache._update_seq { s1 with bids := nb, asks := na }
        d.seqNum d.prevSeqNum)
  | _, _ => none

/-- The delta branch of `process_message`: apply levels onto the existing
books, then `_update_seq`. -/
def applyDeltaMsg (s : OSSOrderBookCache) (d : MsgData) :
    Option OSSOrderBookCache :=
  match applyLevels s.bids (d.bids.getD []), applyLevels s.asks (d.asks.getD []) with
  | some nb, some na =>
      some (OSSOrderBookCache._update_seq { s with bids := nb, asks := na }
        d.seqNum d.prevSeqNum)
  | _, _ => none

/-- `OSSOrderBookCache.process_message(msg)`.  `some s'` is the state after
the call; `none` models a `ValueError` escaping from `float()` (the Python
object is then left partially mutated — no claim touches that path). -/
def OSSOrderBookCache.process_message (s : OSSOrderBookCache) (m : Msg) :
    Option OSSOrderBookCache :=
  if relevantTopic m.topic then
    match m.data with
    | none => some s
    | some d =>
        if symbolMismatch s d then some s
        else
          let ob_type := d.type.getD "delta"
          if ob_type = "snapshot" ∨ ob_type = "snapshotL1" then
            applySnapshotMsg s d
          else if ob_type = "delta" then
            applyDeltaMsg s d
          else some s
  else some s

/-- Ascending sort of price keys (Python `sorted(keys)`). -/
def sortAsc (l : List ℚ) : List ℚ :=
  l.insertionSort (fun a b => a ≤ b)

/-- Descending sort of price keys (Python `sorted(keys, reverse=True)`). -/
def sortDesc (l : List ℚ) : List ℚ :=
  l.insertionSort (fun a b => b ≤ a)

/-- `OSSOrderBookCache._sorted_side(side)`: sort the side's keys (descending
for bids, ascending for asks) and read each key's size. -/
def OSSOrderBookCache._sorted_side (s : OSSOrderBookCache) (side : String) :
    List Level :=
  let book := if side = "bids" then s.bids else s.asks
  let sortedKeys :=
    if side = "bids" then sortDesc (dictKeys book) else sortAsc (dictKeys book)
  sortedKeys.map (fun p => ⟨p, dictGet book p⟩)

/-- `OSSOrderBookCache.levels(side, depth)`. -/
def OSSOrderBookCache.levels (s : OSSOrderBookCache) (side : String)
    (depth : Option Nat) : List Level :=
  let lvls := s._sorted_side side
  match depth with
  | none => lvls
  | some d => lvls.take d

/-- `OSSOrderBookCache.best_bid()`. -/
def OSSOrderBookCache.best_bid (s : OSSOrderBookCache) : Option Level :=
  (s.levels "bids" (some 1)).head?

/-- `OSSOrderBookCache.best_ask()`. -/
def OSSOrderBookCache.best_ask (s : OSSOrderBookCache) : Option Level :=
  (s.levels "asks" (some 1)).head?

/-- `OSSOrderBookCache.mid_price()`. -/
def OSSOrderBookCache.mid_price (s : OSSOrderBookCache) : Option ℚ :=
  match s.best_bid, s.best_ask with
  | some b, some a => some ((b.price + a.price) / 2)
  | _, _ => none

/-- The error taxonomy of the websocket send path (`ws.py`): the spec's
`NotStartedError` is realised by the `RuntimeError("WebSocket is not
started; call start() first")` raise, and `TimeoutError` by the
`TimeoutError` raise. -/
inductive WSError where
  | notStarted
  | timeout
deriving DecidableEq, Repr

/-- `BTSEWebSocketBase.send_json(payload, timeout)` (`ws.py` lines 159-164).
`wsStarted` models `self._ws is not None` (a transport handle exists, i.e.
`start()` was called); `openWithinTimeout` models the outcome of
`self._connected.wait(timeout=timeout)` — whether the "open" signal fired
before the timeout elapsed.  On success the serialised payload is the value
written to the socket. -/
def send_json (wsStarted : Bool) (openWithinTimeout : Bool)
    (serializedPayload : String) : Except WSError String :=
  if !wsStarted then Except.error WSError.notStarted
  else if !openWithinTimeout then Except.error WSError.timeout
  else Except.ok serializedPayload


/-- The messages on which `process_message` takes the snapshot branch (and
hence calls `reset()`): relevant topic, dict data, symbol guard passed, and
resolved type `"snapshot"` or `"snapshotL1"`. -/
def snapshotApplies (s : OSSOrderBookCache) (m : Msg) : Bool :=
  relevantTopic m.topic &&
    (match m.data with
     | some d =>
         !(symbolMismatch s d) &&
           (decide (d.type.getD "delta" = "snapshot") ||
             decide (d.type.getD "delta" = "snapshotL1"))
     | none => false)

/-- Well-formedness of an engine state: each side's price keys are unique —
true of every state a Python dict can represent, and preserved by
`process_message` (see `process_message_WF`). -/
def WF (s : OSSOrderBookCache) : Prop :=
  (dictKeys s.bids).Nodup ∧ (dictKeys s.asks).Nodup

instance : IsTotal ℚ (fun a b => b ≤ a) := ⟨fun a b => le_total b a⟩

instance : IsTrans ℚ (fun a b => b ≤ a) := ⟨fun _ _ _ h1 h2 => le_trans h2 h1⟩

instance : IsTotal ℚ (fun a b => a ≤ b) := ⟨fun a b => le_total a b⟩

instance : IsTrans ℚ (fun a b => a ≤ b) := ⟨fun _ _ _ h1 h2 => le_trans h1 h2⟩

/-- A delta message on the `update:BTC-USD_0` topic for symbol `BTC-USD`. -/
def exDelta (b a : List (String × String)) (sq pv : Option Int) : Msg :=
  { topic := "update:BTC-USD_0",
    data := some { symbol := some "BTC-USD", type := some "delta",
                   bids := some b, asks := some a, seqNum := sq,
                   prevSeqNum := pv } }

/-- A snapshot message on the `update:BTC-USD_0` topic for symbol `BTC-USD`. -/
def exSnapshot (b a : List (String × String)) (sq pv : Option Int) : Msg :=
  { topic := "update:BTC-USD_0",
    data := some { symbol := some "BTC-USD", type := some "snapshot",
                   bids := some b, asks := some a, seqNum := sq,
                   prevSeqNum := pv } }

/-- A reachable out-of-sync state: `init "BTC-USD"`, then a delta carrying
`seqNum=1`, then a delta carrying `seqNum=3, prevSeqNum=2` (gap over 2). -/
def c1S : OSSOrderBookCache :=
  { symbol := "BTC-USD", bids := [], asks := [], seq_num := some 3,
    prev_seq_num := some 2, out_of_sync := true }

/-- A reachable state holding `sequenceNumber=5`: `init "BTC-USD"` after a
delta carrying `seqNum=5`. -/
def c2S : OSSOrderBookCache :=
  { symbol := "BTC-USD", bids := [], asks := [], seq_num := some 5,
    prev_seq_num := none, out_of_sync := false }

/-- An arbitrary dirty prior state for the snapshot-replacement claim. -/
def c3S : OSSOrderBookCache :=
  { symbol := "BTC-USD", bids := [(42, 7)], asks := [(43, 9)],
    seq_num := some 10, prev_seq_num := some 9, out_of_sync := true }

/-- The spec's snapshot example: bids `[[100,"1"],[99,"2"]]` and no asks. -/
def c3M : Msg :=
  { topic := "update:BTC-USD_0",
    data := some { symbol := some "BTC-USD", type := some "snapshot",
                   bids := some [("100", "1"), ("99", "2")], asks := none,
                   seqNum := none, prevSeqNum := none } }

/-- The state with bids/asks `{100:1, 105:2, 98:3}` from the spec's sorting
example. -/
def c6S : OSSOrderBookCache :=
  { symbol := "BTC-USD", bids := [(100, 1), (105, 2), (98, 3)],
    asks := [(100, 1), (105, 2), (98, 3)], seq_num := none,
    prev_seq_num := none, out_of_sync := false }

/-- A relevant-topic snapshot message whose `data.symbol` is the empty
string: present and different from any non-empty engine symbol, yet Python's
truthiness test lets it through the guard. -/
def c7M : Msg :=
  { topic := "update:BTC-USD_0",
    data := some { symbol := some "", type := some "snapshot",
                   bids := some [("1", "2")], asks := none,
                   seqNum := none, prevSeqNum := none } }

/-- A message for a different symbol than `BTC-USD`. -/
def c7M2 : Msg :=
  { topic := "update:ETH-USD_0",
    data := some { symbol := some "ETH-USD", type := some "delta",
                   bids := some [("1", "2")], asks := none,
                   seqNum := some 9, prevSeqNum := some 8 } }

/-- A message whose topic names neither `update:` nor `snapshotL1:`. -/
def c7M3 : Msg :=
  { topic := "tradeHistoryApi:BTC-USD",
    data := some { symbol := some "BTC-USD", type := some "delta",
                   bids := some [("1", "2")], asks := none,
                   seqNum := some 9, prevSeqNum := some 8 } }

/-- A dirty prior state (out of sync, sequence held) for the snapshot
sequence-clearing claim. -/
def c9S : OSSOrderBookCache :=
  { symbol := "BTC-USD", bids := [(1, 1)], asks := [],
    seq_num := some 10, prev_seq_num := some 9, out_of_sync := true }

/-- A relevant-topic, matching-symbol message with an explicit unknown type
and sequence numbers attached. -/
def c10M : Msg :=
  { topic := "update:BTC-USD_0",
    data := some { symbol := some "BTC-USD", type := some "tradeHistory",
                   bids := some [("1", "1")], asks := none,
                   seqNum := some 9, prevSeqNum := some 8 } }

/-- The state after `c2S` processes a delta with `seqNum=6, prevSeqNum=4`
(gap: 4 ≠ 5). -/
def c2R : OSSOrderBookCache :=
  { symbol := "BTC-USD", bids := [], asks := [], seq_num := some 6,
    prev_seq_num := some 4, out_of_sync := true }

/-- The state after any prior state processes the snapshot `c3M`. -/
def c3R : OSSOrderBookCache :=
  { symbol := "BTC-USD", bids := [(100, 1), (99, 2)], asks := [],
    seq_num := none, prev_seq_num := none, out_of_sync := false }

/-- A snapshot message that carries no `seqNum`. -/
def c9M : Msg := exSnapshot [("100", "1")] [] none none

/-- The state after `c9S` processes the no-`seqNum` snapshot `c9M`. -/
def c9R : OSSOrderBookCache :=
  { symbol := "BTC-USD", bids := [(100, 1)], asks := [], seq_num := none,
    prev_seq_num := none, out_of_sync := false }

/-- A delta carrying `seqNum=7, prevSeqNum=6`, the first delta after `c9M`. -/
def c9M2 : Msg := exDelta [("99", "5")] [] (some 7) (some 6)

/-- The state after `c9R` processes the delta `c9M2`. -/
def c9R2 : OSSOrderBookCache :=
  { symbol := "BTC-USD", bids := [(100, 1), (99, 5)], asks := [],
    seq_num := some 7, prev_seq_num := some 6, out_of_sync := false }

/-! ### Dictionary lemmas -/

theorem dictKeys_cons (e : ℚ × ℚ) (rest : Book) :
    dictKeys (e :: rest) = e.1 :: dictKeys rest := rfl

theorem dictPop_of_not_mem (book : Book) (p : ℚ) (h : p ∉ dictKeys book) :
    dictPop book p = book := by
  induction book with
  | nil => rfl
  | cons e rest ih =>
      rw [dictKeys_cons, List.mem_cons] at h
      push_neg at h
      rw [dictPop, if_neg (fun hc => h.1 hc.symm), ih h.2]

theorem not_mem_dictKeys_pop (book : Book) (p : ℚ) :
    p ∉ dictKeys (dictPop book p) := by
  induction book with
  | nil => simp [dictPop, dictKeys]
  | cons e rest ih =>
      rw [dictPop]
      by_cases he : e.1 = p
      · rw [if_pos he]; exact ih
      · rw [if_neg he, dictKeys_cons, List.mem_cons]
        push_neg
        exact ⟨fun hc => he hc.symm, ih⟩

theorem dictGet_pop_ne (book : Book) (p q : ℚ) (h : q ≠ p) :
    dictGet (dictPop book p) q = dictGet book q := by
  induction book with
  | nil => rfl
  | cons e rest ih =>
      rw [dictPop]
      by_cases he : e.1 = p
      · rw [if_pos he, dictGet, if_neg (by rw [he]; exact fun hc => h hc.symm), ih]
      · rw [if_neg he, dictGet, dictGet]
        by_cases hq : e.1 = q
        · rw [if_pos hq, if_pos hq]
        · rw [if_neg hq, if_neg hq, ih]

theorem dictGet_set_self (book : Book) (p v : ℚ) :
    dictGet (dictSet book p v) p = v := by
  induction book with
  | nil => simp [dictSet, dictGet]
  | cons e rest ih =>
      rw [dictSet]
      rcases e with ⟨q0, w0⟩
      by_cases he : q0 = p
      · rw [if_pos he, dictGet, if_pos rfl]
      · rw [if_neg he, dictGet, if_neg he, ih]

theorem dictGet_set_ne (book : Book) (p v q : ℚ) (h : q ≠ p) :
    dictGet (dictSet book p v) q = dictGet book q := by
  induction book with
  | nil =>
      simp only [dictSet, dictGet]
      exact if_neg (fun hc : p = q => h hc.symm)
  | cons e rest ih =>
      rw [dictSet]
      rcases e with ⟨q0, w0⟩
      by_cases he : q0 = p
      · rw [if_pos he, dictGet, if_neg (fun hc : p = q => h hc.symm), dictGet,
          if_neg (by rw [he]; exact fun hc => h hc.symm)]
      · rw [if_neg he, dictGet, dictGet]
        by_cases hq : q0 = q
        · rw [if_pos hq, if_pos hq]
        · rw [if_neg hq, if_neg hq, ih]

theorem dictKeys_set_mem (book : Book) (p v : ℚ) (h : p ∈ dictKeys book) :
    dictKeys (dictSet book p v) = dictKeys book := by
  induction book with
  | nil => simp [dictKeys] at h
  | cons e rest ih =>
      rw [dictKeys_cons, List.mem_cons] at h
      rw [dictSet]
      rcases e with ⟨q0, w0⟩
      by_cases he : q0 = p
      · rw [if_pos he, dictKeys_cons, dictKeys_cons, he]
      · rw [if_neg he, dictKeys_cons, dictKeys_cons,
          ih (h.resolve_left (fun hc => he hc.symm))]

theorem dictKeys_set_not_mem (book : Book) (p v : ℚ) (h : p ∉ dictKeys book) :
    dictKeys (dictSet book p v) = dictKeys book ++ [p] := by
  induction book with
  | nil => simp [dictSet, dictKeys]
  | cons e rest ih =>
      rw [dictKeys_cons, List.mem_cons] at h
      push_neg at h
      rw [dictSet]
      rcases e with ⟨q0, w0⟩
      rw [if_neg (fun hc => h.1 hc.symm), dictKeys_cons, dictKeys_cons, ih h.2,
        List.cons_append]

theorem dictKeys_pop_sublist (book : Book) (p : ℚ) :
    (dictKeys (dictPop book p)).Sublist (dictKeys book) := by
  induction book with
  | nil => simp [dictPop, dictKeys]
  | cons e rest ih =>
      rw [dictPop]
      by_cases he : e.1 = p
      · rw [if_pos he, dictKeys_cons]
        exact ih.cons e.1
      · rw [if_neg he, dictKeys_cons, dictKeys_cons]
        exact ih.cons₂ e.1

theorem nodup_dictKeys_pop (book : Book) (p : ℚ)
    (h : (dictKeys book).Nodup) : (dictKeys (dictPop book p)).Nodup :=
  (dictKeys_pop_sublist book p).nodup h

theorem nodup_dictKeys_set (book : Book) (p v : ℚ)
    (h : (dictKeys book).Nodup) : (dictKeys (dictSet book p v)).Nodup := by
  by_cases hm : p ∈ dictKeys book
  · rw [dictKeys_set_mem book p v hm]; exact h
  · rw [dictKeys_set_not_mem book p v hm]
    simp [List.nodup_append, h, hm]

theorem dictGet_mem (book : Book) (p v : ℚ) (hnd : (dictKeys book).Nodup)
    (h : (p, v) ∈ book) : dictGet book p = v := by
  induction book with
  | nil => simp at h
  | cons e rest ih =>
      rw [dictKeys_cons, List.nodup_cons] at hnd
      rw [List.mem_cons] at h
      rw [dictGet]
      rcases h with h | h
      · rw [← h]; simp
      · have hne : e.1 ≠ p := by
          intro hc
          exact hnd.1 (hc ▸ List.mem_map_of_mem Prod.fst h)
        rw [if_neg hne]
        exact ih hnd.2 h

/-! ### Sequence-bookkeeping lemmas (`_update_seq`) -/

theorem update_seq_seq_none (s : OSSOrderBookCache) (p : Option Int) :
    s._update_seq none p = s := rfl

theorem update_seq_seq_some_fields (s : OSSOrderBookCache) (sq : Int)
    (p : Option Int) :
    (s._update_seq (some sq) p).seq_num = some sq ∧
      (s._update_seq (some sq) p).prev_seq_num = p ∧
      (s._update_seq (some sq) p).bids = s.bids ∧
      (s._update_seq (some sq) p).asks = s.asks ∧
      (s._update_seq (some sq) p).symbol = s.symbol := by
  simp [OSSOrderBookCache._update_seq]

theorem update_seq_oos_of_true (s : OSSOrderBookCache) (q p : Option Int)
    (h : s.out_of_sync = true) : (s._update_seq q p).out_of_sync = true := by
  cases q with
  | none => exact h
  | some sq =>
      simp only [OSSOrderBookCache._update_seq]
      cases hs : s.seq_num with
      | none => simpa using h
      | some held =>
          cases p with
          | none => simpa using h
          | some pv =>
              by_cases hne : pv ≠ held <;> simp [hne, h]

theorem update_seq_oos_of_held_none (s : OSSOrderBookCache) (q p : Option Int)
    (hs : s.seq_num = none) :
    (s._update_seq q p).out_of_sync = s.out_of_sync := by
  cases q with
  | none => rfl
  | some sq => simp [OSSOrderBookCache._update_seq, hs]

theorem update_seq_oos_gap (s : OSSOrderBookCache) (sq held pv : Int)
    (hs : s.seq_num = some held) (hne : pv ≠ held) :
    (s._update_seq (some sq) (some pv)).out_of_sync = true := by
  simp [OSSOrderBookCache._update_seq, hs, hne]

theorem update_seq_oos_of_prev_none (s : OSSOrderBookCache) (sq : Int) :
    (s._update_seq (some sq) none).out_of_sync = s.out_of_sync := by
  cases hs : s.seq_num <;> simp [OSSOrderBookCache._update_seq, hs]

/-! ### `process_message` branch characterisations -/

theorem process_message_not_relevant (s : OSSOrderBookCache) (m : Msg)
    (h : relevantTopic m.topic = false) : s.process_message m = some s := by
  simp [OSSOrderBookCache.process_message, h]

theorem process_message_no_data (s : OSSOrderBookCache) (m : Msg)
    (h : m.data = none) : s.process_message m = some s := by
  by_cases ht : relevantTopic m.topic <;>
    simp [OSSOrderBookCache.process_message, h, ht]

theorem process_message_sym_mismatch (s : OSSOrderBookCache) (m : Msg)
    (d : MsgData) (hd : m.data = some d) (h : symbolMismatch s d = true) :
    s.process_message m = some s := by
  by_cases ht : relevantTopic m.topic <;>
    simp [OSSOrderBookCache.process_message, hd, h, ht]

theorem process_message_snapshot (s : OSSOrderBookCache) (m : Msg)
    (d : MsgData) (ht : relevantTopic m.topic = true) (hd : m.data = some d)
    (hsym : symbolMismatch s d = false)
    (htype : d.type.getD "delta" = "snapshot" ∨ d.type.getD "delta" = "snapshotL1") :
    s.process_message m = applySnapshotMsg s d := by
  rcases htype with h | h <;>
    simp [OSSOrderBookCache.process_message, ht, hd, hsym, h]

theorem process_message_delta (s : OSSOrderBookCache) (m : Msg)
    (d : MsgData) (ht : relevantTopic m.topic = true) (hd : m.data = some d)
    (hsym : symbolMismatch s d = false)
    (htype : d.type.getD "delta" = "delta") :
    s.process_message m = applyDeltaMsg s d := by
  simp [OSSOrderBookCache.process_message, ht, hd, hsym, htype]

theorem process_message_other_type (s : OSSOrderBookCache) (m : Msg)
    (d : MsgData) (t : String) (ht : relevantTopic m.topic = true)
    (hd : m.data = some d) (hsym : symbolMismatch s d = false)
    (htype : d.type = some t) (h1 : t ≠ "snapshot") (h2 : t ≠ "snapshotL1")
    (h3 : t ≠ "delta") : s.process_message m = some s := by
  simp [OSSOrderBookCache.process_message, ht, hd, hsym, htype, h1, h2, h3]

theorem update_seq_oos_no_gap (s : OSSOrderBookCache) (sq held pv : Int)
    (hs : s.seq_num = some held) (heq : pv = held) :
    (s._update_seq (some sq) (some pv)).out_of_sync = s.out_of_sync := by
  simp [OSSOrderBookCache._update_seq, hs, heq]

/-! ### Branch inversion lemmas -/

theorem applyDeltaMsg_inv (s : OSSOrderBookCache) (d : MsgData)
    (s' : OSSOrderBookCache) (h : applyDeltaMsg s d = some s') :
    ∃ nb na, applyLevels s.bids (d.bids.getD []) = some nb ∧
      applyLevels s.asks (d.asks.getD []) = some na ∧
      s' = OSSOrderBookCache._update_seq { s with bids := nb, asks := na }
        d.seqNum d.prevSeqNum := by
  unfold applyDeltaMsg at h
  cases hb : applyLevels s.bids (d.bids.getD []) with
  | none =>
      cases ha : applyLevels s.asks (d.asks.getD []) with
      | none => rw [hb, ha] at h; simp at h
      | some na => rw [hb, ha] at h; simp at h
  | some nb =>
      cases ha : applyLevels s.asks (d.asks.getD []) with
      | none => rw [hb, ha] at h; simp at h
      | some na =>
          rw [hb, ha] at h
          exact ⟨nb, na, rfl, rfl, (Option.some.inj h).symm⟩

theorem applySnapshotMsg_inv (s : OSSOrderBookCache) (d : MsgData)
    (s' : OSSOrderBookCache) (h : applySnapshotMsg s d = some s') :
    ∃ nb na, applyLevels [] (d.bids.getD []) = some nb ∧
      applyLevels [] (d.asks.getD []) = some na ∧
      s' = OSSOrderBookCache._update_seq
        { symbol := s.symbol, bids := nb, asks := na, seq_num := none,
          prev_seq_num := none, out_of_sync := false }
        d.seqNum d.prevSeqNum := by
  simp only [applySnapshotMsg] at h
  cases hb : applyLevels s.reset.bids (d.bids.getD []) with
  | none =>
      cases ha : applyLevels s.reset.asks (d.asks.getD []) with
      | none => rw [hb, ha] at h; simp at h
      | some na => rw [hb, ha] at h; simp at h
  | some nb =>
      cases ha : applyLevels s.reset.asks (d.asks.getD []) with
      | none => rw [hb, ha] at h; simp at h
      | some na =>
          rw [hb, ha] at h
          exact ⟨nb, na, hb, ha, (Option.some.inj h).symm⟩

/-- Exhaustive case split on a successful `process_message` call: either the
call was a no-op, or it took the snapshot branch, or it took the delta
branch. -/
theorem process_message_cases (s : OSSOrderBookCache) (m : Msg)
    (s' : OSSOrderBookCache) (hp : s.process_message m = some s') :
    s' = s ∨
      (∃ d, m.data = some d ∧ relevantTopic m.topic = true ∧
        symbolMismatch s d = false ∧
        (((d.type.getD "delta" = "snapshot" ∨ d.type.getD "delta" = "snapshotL1") ∧
            applySnapshotMsg s d = some s') ∨
          (d.type.getD "delta" = "delta" ∧ applyDeltaMsg s d = some s'))) := by
  by_cases ht : relevantTopic m.topic
  · cases hd : m.data with
    | none =>
        rw [process_message_no_data s m hd] at hp
        exact Or.inl (Option.some.inj hp).symm
    | some d =>
        by_cases hsym : symbolMismatch s d
        · rw [process_message_sym_mismatch s m d hd hsym] at hp
          exact Or.inl (Option.some.inj hp).symm
        · have hsym' : symbolMismatch s d = false := by simpa using hsym
          by_cases hsnap : d.type.getD "delta" = "snapshot" ∨
              d.type.getD "delta" = "snapshotL1"
          · rw [process_message_snapshot s m d (by simpa using ht) hd hsym' hsnap] at hp
            exact Or.inr ⟨d, rfl, by simpa using ht, hsym', Or.inl ⟨hsnap, hp⟩⟩
          · by_cases hdelta : d.type.getD "delta" = "delta"
            · rw [process_message_delta s m d (by simpa using ht) hd hsym' hdelta] at hp
              exact Or.inr ⟨d, rfl, by simpa using ht, hsym', Or.inr ⟨hdelta, hp⟩⟩
            · simp [OSSOrderBookCache.process_message, ht, hd, hsym', hsnap,
                hdelta] at hp
              exact Or.inl hp.symm
  · rw [process_message_not_relevant s m (by simpa using ht)] at hp
    exact Or.inl (Option.some.inj hp).symm

/-- If the engine holds no sequence number and is in sync, no single message
can make it out of sync. -/
theorem process_oos_of_no_seq (s : OSSOrderBookCache) (m : Msg)
    (s' : OSSOrderBookCache) (h1 : s.seq_num = none) (h2 : s.out_of_sync = false)
    (hp : s.process_message m = some s') : s'.out_of_sync = false := by
  rcases process_message_cases s m s' hp with rfl | ⟨d, _, _, _, ⟨_, hs⟩ | ⟨_, hs⟩⟩
  · exact h2
  · obtain ⟨nb, na, _, _, rfl⟩ := applySnapshotMsg_inv s d s' hs
    rw [update_seq_oos_of_held_none
      ({ symbol := s.symbol, bids := nb, asks := na, seq_num := none,
         prev_seq_num := none, out_of_sync := false }) d.seqNum d.prevSeqNum rfl]
  · obtain ⟨nb, na, _, _, rfl⟩ := applyDeltaMsg_inv s d s' hs
    rw [update_seq_oos_of_held_none ({ s with bids := nb, asks := na })
      d.seqNum d.prevSeqNum h1]
    exact h2

/-! ### Claim theorems -/

/-- C1 counterexample: from a reachable state with `outOfSync = true` (a gap
over sequence 2), processing a relevant snapshot message — an incoming
message, not a `reset()` call — clears `outOfSync` back to `false`, because
`process_message` invokes `reset()` on the snapshot branch.  This falsifies
"processing any further incoming message ... leaves outOfSync true". -/
theorem C1_counterexample :
    ((OSSOrderBookCache.init "BTC-USD").process_message
        (exDelta [] [] (some 1) none)).bind
      (fun s => s.process_message (exDelta [] [] (some 3) (some 2))) = some c1S ∧
    c1S.out_of_sync = true ∧
    (c1S.process_message (exSnapshot [("100", "1")] [] none none)).map
        OSSOrderBookCache.out_of_sync = some false := by
  refine ⟨by decide, rfl, by decide⟩

/-- C1 (amended): in every state with `outOfSync = true`, processing any
message that does not take the snapshot branch (i.e. is not a relevant,
symbol-matching message of resolved type `"snapshot"`/`"snapshotL1"`)
leaves `outOfSync = true`; only `reset()` — called directly or via the
snapshot branch — clears it. -/
theorem C1_out_of_sync_sticky (s : OSSOrderBookCache) (m : Msg)
    (s' : OSSOrderBookCache) (h : s.out_of_sync = true)
    (hn : snapshotApplies s m = false)
    (hp : s.process_message m = some s') : s'.out_of_sync = true := by
  rcases process_message_cases s m s' hp with
    rfl | ⟨d, hd, ht, hsym, ⟨hsnap, hs⟩ | ⟨hdelta, hs⟩⟩
  · exact h
  · exfalso
    rcases hsnap with h1 | h1 <;>
      simp [snapshotApplies, ht, hd, hsym, h1] at hn
  · obtain ⟨nb, na, _, _, rfl⟩ := applyDeltaMsg_inv s d s' hs
    exact update_seq_oos_of_true ({ s with bids := nb, asks := na })
      d.seqNum d.prevSeqNum h

/-- C1 witness: the out-of-sync state `c1S` stays out of sync across a
well-formed delta message. -/
theorem C1_witness :
    c1S.out_of_sync = true ∧
    snapshotApplies c1S (exDelta [("100", "1")] [] (some 4) (some 3)) = false ∧
    OSSOrderBookCache.out_of_sync
      { symbol := "BTC-USD", bids := [(100, 1)], asks := [], seq_num := some 4,
        prev_seq_num := some 3, out_of_sync := true } = true :=
  ⟨rfl, by decide,
    C1_out_of_sync_sticky c1S (exDelta [("100", "1")] [] (some 4) (some 3))
      _ rfl (by decide) (by decide)⟩

/-- C4: a message processed while the engine holds no sequence number (the
situation after construction or `reset()`) never sets `outOfSync`, even if
it carries a `prevSeqNum`. -/
theorem C4_first_message_immunity (s : OSSOrderBookCache) (m : Msg)
    (s' : OSSOrderBookCache) (h1 : s.seq_num = none)
    (h2 : s.out_of_sync = false) (hp : s.process_message m = some s') :
    s'.out_of_sync = false :=
  process_oos_of_no_seq s m s' h1 h2 hp

/-- C4 witness: the freshly constructed engine processes a delta carrying
`prevSeqNum=4` (and `seqNum=6`) without going out of sync. -/
theorem C4_witness :
    (OSSOrderBookCache.init "BTC-USD").seq_num = none ∧
    (OSSOrderBookCache.init "BTC-USD").out_of_sync = false ∧
    OSSOrderBookCache.out_of_sync
      { symbol := "BTC-USD", bids := [(100, 1)], asks := [], seq_num := some 6,
        prev_seq_num := some 4, out_of_sync := false } = false :=
  ⟨rfl, rfl,
    C4_first_message_immunity (OSSOrderBookCache.init "BTC-USD")
      (exDelta [("100", "1")] [] (some 6) (some 4)) _ rfl rfl (by decide)⟩

/-- C7 counterexample: a relevant-topic message whose `data.symbol` is
present (`""`) and differs from the engine's symbol (`"BTC-USD"`) is *not* a
no-op: Python's truthiness test `if symbol and symbol != self.symbol` skips
the guard for the empty string, and the message's snapshot levels are
applied. -/
theorem C7_counterexample :
    c7M.data.bind MsgData.symbol = some "" ∧ "" ≠ "BTC-USD" ∧
    ((OSSOrderBookCache.init "BTC-USD").process_message c7M).map
        OSSOrderBookCache.bids = some [(1, 2)] ∧
    (OSSOrderBookCache.init "BTC-USD").bids = [] := by
  refine ⟨rfl, by decide, by decide, rfl⟩

/-- C7 (amended): a message whose topic contains neither `"update:"` nor
`"snapshotL1:"`, or whose `data.symbol` is present, **non-empty**, and
different from the engine's configured symbol, leaves every field of the
engine state unchanged. -/
theorem C7_irrelevant_noop (s : OSSOrderBookCache) (m : Msg)
    (h : relevantTopic m.topic = false ∨
      ∃ d sy, m.data = some d ∧ d.symbol = some sy ∧ sy ≠ "" ∧ sy ≠ s.symbol) :
    s.process_message m = some s := by
  rcases h with h | ⟨d, sy, hd, hsy, h1, h2⟩
  · exact process_message_not_relevant s m h
  · by_cases ht : relevantTopic m.topic
    · apply process_message_sym_mismatch s m d hd
      simp [symbolMismatch, hsy, h1, h2]
    · exact process_message_not_relevant s m (by simpa using ht)

/-- C7 witness: a differing non-empty symbol (`"ETH-USD"` vs `"BTC-USD"`)
and an irrelevant topic (`tradeHistoryApi:...`) are both no-ops. -/
theorem C7_witness :
    (OSSOrderBookCache.init "BTC-USD").process_message c7M2
        = some (OSSOrderBookCache.init "BTC-USD") ∧
    c2S.process_message c7M3 = some c2S :=
  ⟨C7_irrelevant_noop _ c7M2 (Or.inr ⟨_, "ETH-USD", rfl, rfl, by decide, by decide⟩),
   C7_irrelevant_noop c2S c7M3 (Or.inl (by decide))⟩

/-- C10: a relevant-topic, guard-passing message with an explicit type that
is none of `"snapshot"`, `"snapshotL1"`, `"delta"` leaves the entire state
unchanged — `process_message` returns before `_update_seq`, so even an
attached `seqNum`/`prevSeqNum` is ignored. -/
theorem C10_unknown_type_noop (s : OSSOrderBookCache) (m : Msg) (d : MsgData)
    (t : String) (ht : relevantTopic m.topic = true) (hd : m.data = some d)
    (hsym : symbolMismatch s d = false) (htype : d.type = some t)
    (h1 : t ≠ "snapshot") (h2 : t ≠ "snapshotL1") (h3 : t ≠ "delta") :
    s.process_message m = some s :=
  process_message_other_type s m d t ht hd hsym htype h1 h2 h3

/-- C10 witness: a `type="tradeHistory"` message with `seqNum=9,
prevSeqNum=8` leaves the `seqNum=5` state `c2S` fully unchanged. -/
theorem C10_witness :
    c10M.data.map MsgData.seqNum = some (some 9) ∧
    c2S.process_message c10M = some c2S :=
  ⟨rfl, C10_unknown_type_noop c2S c10M _ "tradeHistory" (by decide) rfl
    (by decide) rfl (by decide) (by decide) (by decide)⟩

theorem update_seq_books (s : OSSOrderBookCache) (q p : Option Int) :
    (s._update_seq q p).bids = s.bids ∧ (s._update_seq q p).asks = s.asks := by
  cases q with
  | none => exact ⟨rfl, rfl⟩
  | some sq => simp [OSSOrderBookCache._update_seq]

/-- C2 counterexample: the claim is stated for *every* relevant message, but
on a snapshot message the internal `reset()` clears the held sequence before
`_update_seq` runs.  From the reachable state holding `sequenceNumber=5`:
a snapshot with `seqNum=7, prevSeqNum=3` (3 ≠ 5) leaves `outOfSync=false`,
and a snapshot with no `seqNum` clears — not preserves — the held sequence
fields. -/
theorem C2_counterexample :
    (OSSOrderBookCache.init "BTC-USD").process_message
        (exDelta [] [] (some 5) none) = some c2S ∧
    c2S.seq_num = some 5 ∧
    (c2S.process_message (exSnapshot [] [] (some 7) (some 3))).map
        OSSOrderBookCache.out_of_sync = some false ∧
    (c2S.process_message (exSnapshot [] [] none none)).map
        OSSOrderBookCache.seq_num = some none := by
  refine ⟨by decide, rfl, by decide, by decide⟩

/-- C2 (amended to delta messages, where no internal reset intervenes): on a
processed delta, (1) a carried `seqNum` with a held sequence number and a
disagreeing carried `prevSeqNum` sets `outOfSync`; (2) whenever a `seqNum`
is carried, the sequence fields are overwritten with the message's values;
(3) with no `seqNum`, both sequence fields and the gap flag are left
untouched. -/
theorem C2_delta_sequence_bookkeeping (s : OSSOrderBookCache) (m : Msg)
    (d : MsgData) (s' : OSSOrderBookCache) (ht : relevantTopic m.topic = true)
    (hd : m.data = some d) (hsym : symbolMismatch s d = false)
    (htype : d.type.getD "delta" = "delta")
    (hp : s.process_message m = some s') :
    (∀ sq pv held, d.seqNum = some sq → s.seq_num = some held →
        d.prevSeqNum = some pv → pv ≠ held → s'.out_of_sync = true) ∧
    (∀ sq, d.seqNum = some sq →
        s'.seq_num = some sq ∧ s'.prev_seq_num = d.prevSeqNum) ∧
    (d.seqNum = none → s'.seq_num = s.seq_num ∧
        s'.prev_seq_num = s.prev_seq_num ∧ s'.out_of_sync = s.out_of_sync) := by
  rw [process_message_delta s m d ht hd hsym htype] at hp
  obtain ⟨nb, na, hb, ha, rfl⟩ := applyDeltaMsg_inv s d s' hp
  refine ⟨?_, ?_, ?_⟩
  · intro sq pv held hsq hheld hpv hne
    rw [hsq, hpv]
    exact update_seq_oos_gap ({ s with bids := nb, asks := na }) sq held pv
      hheld hne
  · intro sq hsq
    rw [hsq]
    exact ⟨(update_seq_seq_some_fields ({ s with bids := nb, asks := na }) sq
        d.prevSeqNum).1,
      (update_seq_seq_some_fields ({ s with bids := nb, asks := na }) sq
        d.prevSeqNum).2.1⟩
  · intro hsq
    rw [hsq]
    exact ⟨rfl, rfl, rfl⟩

/-- C2 witness: from the held-`seqNum=5` state, a delta with `prevSeqNum=4,
seqNum=6` (skipping 5) goes out of sync and the fields are overwritten. -/
theorem C2_witness :
    c2S.seq_num = some 5 ∧ c2R.out_of_sync = true ∧ c2R.seq_num = some 6 ∧
    c2R.prev_seq_num = some 4 := by
  have h := C2_delta_sequence_bookkeeping c2S (exDelta [] [] (some 6) (some 4))
    _ c2R (by decide) rfl (by decide) rfl (by decide)
  exact ⟨rfl, h.1 6 4 5 rfl rfl rfl (by decide), (h.2.1 6 rfl).1,
    (h.2.1 6 rfl).2⟩

/-- C3: a processed snapshot (or `snapshotL1`) message replaces both sides:
the resulting bid and ask books are exactly the message's level lists applied
to *empty* books, regardless of prior state. -/
theorem C3_snapshot_replacement (s : OSSOrderBookCache) (m : Msg)
    (d : MsgData) (s' : OSSOrderBookCache) (nb na : Book)
    (ht : relevantTopic m.topic = true) (hd : m.data = some d)
    (hsym : symbolMismatch s d = false)
    (htype : d.type.getD "delta" = "snapshot" ∨
      d.type.getD "delta" = "snapshotL1")
    (hb : applyLevels [] (d.bids.getD []) = some nb)
    (ha : applyLevels [] (d.asks.getD []) = some na)
    (hp : s.process_message m = some s') :
    s'.bids = nb ∧ s'.asks = na := by
  rw [process_message_snapshot s m d ht hd hsym htype] at hp
  obtain ⟨nb', na', hb', ha', rfl⟩ := applySnapshotMsg_inv s d s' hp
  rw [hb] at hb'
  rw [ha] at ha'
  cases Option.some.inj hb'
  cases Option.some.inj ha'
  exact ⟨(update_seq_books _ d.seqNum d.prevSeqNum).1,
    (update_seq_books _ d.seqNum d.prevSeqNum).2⟩

/-- C3 witness: the spec's example.  From the dirty prior state `c3S`
(non-empty books, held sequence, out of sync), the snapshot with bids
`[[100,"1"],[99,"2"]]` and no asks yields exactly those bid levels, in
descending order, and an empty ask side. -/
theorem C3_witness :
    c3S.bids = [(42, 7)] ∧ c3S.out_of_sync = true ∧
    c3R.bids = [(100, 1), (99, 2)] ∧ c3R.asks = [] ∧
    c3R.levels "bids" none = [⟨100, 1⟩, ⟨99, 2⟩] ∧
    c3R.levels "asks" none = [] := by
  have h := C3_snapshot_replacement c3S c3M _ c3R [(100, 1), (99, 2)] []
    (by decide) rfl (by decide) (Or.inl rfl) (by decide) (by decide) (by decide)
  exact ⟨rfl, rfl, h.1, h.2, by decide, rfl⟩

/-- C9: a processed snapshot first clears both sequence fields (via the
internal `reset()`), so the resulting fields come solely from the message:
`seqNum` as carried, `prevSeqNum` only if a `seqNum` was carried.  If the
snapshot carried no `seqNum`, both fields end unset and the engine is in
sync, so no subsequently processed message — in particular the first delta —
can set `outOfSync`. -/
theorem C9_snapshot_clears_sequence (s : OSSOrderBookCache) (m : Msg)
    (d : MsgData) (s' : OSSOrderBookCache) (ht : relevantTopic m.topic = true)
    (hd : m.data = some d) (hsym : symbolMismatch s d = false)
    (htype : d.type.getD "delta" = "snapshot" ∨
      d.type.getD "delta" = "snapshotL1")
    (hp : s.process_message m = some s') :
    s'.seq_num = d.seqNum ∧
    s'.prev_seq_num = (match d.seqNum with
      | some _ => d.prevSeqNum
      | none => none) ∧
    (d.seqNum = none → s'.out_of_sync = false ∧
      ∀ m2 s2, s'.process_message m2 = some s2 → s2.out_of_sync = false) := by
  rw [process_message_snapshot s m d ht hd hsym htype] at hp
  obtain ⟨nb, na, hb, ha, rfl⟩ := applySnapshotMsg_inv s d s' hp
  cases hq : d.seqNum with
  | none =>
      refine ⟨rfl, rfl, fun _ => ⟨rfl, ?_⟩⟩
      intro m2 s2 hp2
      exact process_oos_of_no_seq _ m2 s2 rfl rfl hp2
  | some sq =>
      exact ⟨(update_seq_seq_some_fields _ sq d.prevSeqNum).1,
        (update_seq_seq_some_fields _ sq d.prevSeqNum).2.1,
        fun hc => Option.noConfusion hc⟩

/-- C9 witness: from the dirty state `c9S` (held sequence 10, out of sync),
the no-`seqNum` snapshot `c9M` yields unset sequence fields and a clean
flag, and the first delta after it (`c9M2`, carrying `prevSeqNum=6`) still
leaves `outOfSync=false`. -/
theorem C9_witness :
    c9S.seq_num = some 10 ∧ c9S.out_of_sync = true ∧
    c9R.seq_num = none ∧ c9R.prev_seq_num = none ∧ c9R.out_of_sync = false ∧
    c9R2.out_of_sync = false := by
  have h := C9_snapshot_clears_sequence c9S c9M _ c9R (by decide) rfl
    (by decide) (Or.inl rfl) (by decide)
  refine ⟨rfl, rfl, h.1, h.2.1, (h.2.2 rfl).1, ?_⟩
  exact (h.2.2 rfl).2 c9M2 c9R2 (by decide)

/-- C5: applying one `(priceString, sizeString)` pair to a side parses both
strings; a size of exactly zero removes the price key (a no-op when the
price is absent), any other size inserts or overwrites at that price, and in
both cases every other price's entry is untouched. -/
theorem C5_level_application (book : Book) (ps ss : String) (p sz : ℚ)
    (hp : parseRat ps = some p) (hs : parseRat ss = some sz) :
    (sz = 0 → applyLevel book (ps, ss) = some (dictPop book p) ∧
      (p ∉ dictKeys book → dictPop book p = book) ∧
      (∀ q, q ≠ p → dictGet (dictPop book p) q = dictGet book q) ∧
      p ∉ dictKeys (dictPop book p)) ∧
    (sz ≠ 0 → applyLevel book (ps, ss) = some (dictSet book p sz) ∧
      dictGet (dictSet book p sz) p = sz ∧
      (∀ q, q ≠ p → dictGet (dictSet book p sz) q = dictGet book q)) := by
  constructor
  · intro hz
    subst hz
    exact ⟨by simp [applyLevel, hp, hs], dictPop_of_not_mem book p,
      fun q hq => dictGet_pop_ne book p q hq, not_mem_dictKeys_pop book p⟩
  · intro hz
    exact ⟨by simp [applyLevel, hp, hs, hz], dictGet_set_self book p sz,
      fun q hq => dictGet_set_ne book p sz q hq⟩

/-- C5 witness: on the side `{100: 1}`, the pair `("100","0")` removes price
100, `("101","0")` is a no-op (price absent), and `("101","3")` inserts
without disturbing price 100. -/
theorem C5_witness :
    parseRat "100" = some 100 ∧ parseRat "0" = some 0 ∧
    applyLevel [(100, 1)] ("100", "0") = some [] ∧
    applyLevel [(100, 1)] ("101", "0") = some [(100, 1)] ∧
    applyLevel [(100, 1)] ("101", "3") = some [(100, 1), (101, 3)] ∧
    dictGet [(100, 1), (101, 3)] 100 = 1 := by
  have h1 := C5_level_application [(100, 1)] "100" "0" 100 0
    (by decide) (by decide)
  have h2 := C5_level_application [(100, 1)] "101" "0" 101 0
    (by decide) (by decide)
  have h3 := C5_level_application [(100, 1)] "101" "3" 101 3
    (by decide) (by decide)
  refine ⟨by decide, by decide, ?_, ?_, ?_, by decide⟩
  · rw [(h1.1 rfl).1]; decide
  · rw [(h2.1 rfl).1]; decide
  · rw [(h3.2 (by decide)).1]; decide

/-- C8: `send_json` fails with the spec's `NotStartedError` (the code's
`RuntimeError`) exactly when no transport handle exists (`start()` not
called), fails with `TimeoutError` exactly when the handle exists but the
"open" signal did not fire within the timeout, and otherwise writes the
serialised payload; these are the only two failure cases. -/
theorem C8_send_json_contract (wsStarted openWithinTimeout : Bool)
    (payload : String) :
    (wsStarted = false →
      send_json wsStarted openWithinTimeout payload =
        Except.error WSError.notStarted) ∧
    (wsStarted = true → openWithinTimeout = false →
      send_json wsStarted openWithinTimeout payload =
        Except.error WSError.timeout) ∧
    (wsStarted = true → openWithinTimeout = true →
      send_json wsStarted openWithinTimeout payload = Except.ok payload) ∧
    ((∃ e, send_json wsStarted openWithinTimeout payload = Except.error e) ↔
      wsStarted = false ∨ openWithinTimeout = false) := by
  cases wsStarted <;> cases openWithinTimeout <;> simp [send_json]

/-- C8 witness: the three concrete outcomes. -/
theorem C8_witness :
    send_json false true "p" = Except.error WSError.notStarted ∧
    send_json true false "p" = Except.error WSError.timeout ∧
    send_json true true "p" = Except.ok "p" :=
  ⟨(C8_send_json_contract false true "p").1 rfl,
   (C8_send_json_contract true false "p").2.1 rfl rfl,
   (C8_send_json_contract true true "p").2.2.1 rfl rfl⟩

/-! ### Sorting lemmas for `levels` -/

theorem map_pair_dictGet (book : Book) (hnd : (dictKeys book).Nodup) :
    book.map (fun e : ℚ × ℚ => (e.1, dictGet book e.1)) = book := by
  have h : ∀ e ∈ book, (e.1, dictGet book e.1) = e := by
    intro e he
    have hg : dictGet book e.1 = e.2 :=
      dictGet_mem book e.1 e.2 hnd (by simpa using he)
    rw [hg]
  calc book.map (fun e : ℚ × ℚ => (e.1, dictGet book e.1))
      = book.map id := List.map_congr_left h
    _ = book := List.map_id book

theorem keys_map_pair_perm (book : Book) (hnd : (dictKeys book).Nodup)
    (keys : List ℚ) (hperm : keys.Perm (dictKeys book)) :
    (keys.map (fun p => (p, dictGet book p))).Perm book := by
  have h1 : (keys.map (fun p => (p, dictGet book p))).Perm
      ((dictKeys book).map (fun p => (p, dictGet book p))) := hperm.map _
  have h2 : (dictKeys book).map (fun p => (p, dictGet book p))
      = book.map (fun e : ℚ × ℚ => (e.1, dictGet book e.1)) := by
    rw [dictKeys, List.map_map]
    rfl
  rw [h2, map_pair_dictGet book hnd] at h1
  exact h1

theorem levels_bids_prices (s : OSSOrderBookCache) :
    (s.levels "bids" none).map Level.price = sortDesc (dictKeys s.bids) := by
  show ((sortDesc (dictKeys s.bids)).map
    (fun p => Level.mk p (dictGet s.bids p))).map Level.price = _
  rw [List.map_map]
  exact List.map_id _

theorem levels_asks_prices (s : OSSOrderBookCache) :
    (s.levels "asks" none).map Level.price = sortAsc (dictKeys s.asks) := by
  show ((sortAsc (dictKeys s.asks)).map
    (fun p => Level.mk p (dictGet s.asks p))).map Level.price = _
  rw [List.map_map]
  exact List.map_id _

theorem levels_bids_pairs (s : OSSOrderBookCache)
    (hnd : (dictKeys s.bids).Nodup) :
    ((s.levels "bids" none).map (fun l => (l.price, l.size))).Perm s.bids := by
  show (((sortDesc (dictKeys s.bids)).map
    (fun p => Level.mk p (dictGet s.bids p))).map (fun l => (l.price, l.size))).Perm _
  rw [List.map_map]
  exact keys_map_pair_perm s.bids hnd _ (List.perm_insertionSort _ _)

theorem levels_asks_pairs (s : OSSOrderBookCache)
    (hnd : (dictKeys s.asks).Nodup) :
    ((s.levels "asks" none).map (fun l => (l.price, l.size))).Perm s.asks := by
  show (((sortAsc (dictKeys s.asks)).map
    (fun p => Level.mk p (dictGet s.asks p))).map (fun l => (l.price, l.size))).Perm _
  rw [List.map_map]
  exact keys_map_pair_perm s.asks hnd _ (List.perm_insertionSort _ _)

/-- C6: `levels` returns the side's entries — exactly the stored
price→size pairs — sorted by descending price for `"bids"` and ascending
price for `"asks"`, truncated to the first `depth` entries when a depth is
given and in full otherwise. -/
theorem C6_levels_sorted_view (s : OSSOrderBookCache) (hw : WF s) :
    List.Sorted (fun a b => b ≤ a) ((s.levels "bids" none).map Level.price) ∧
    List.Sorted (fun a b => a ≤ b) ((s.levels "asks" none).map Level.price) ∧
    ((s.levels "bids" none).map (fun l => (l.price, l.size))).Perm s.bids ∧
    ((s.levels "asks" none).map (fun l => (l.price, l.size))).Perm s.asks ∧
    (∀ dep : Nat, s.levels "bids" (some dep) = (s.levels "bids" none).take dep ∧
      s.levels "asks" (some dep) = (s.levels "asks" none).take dep) := by
  refine ⟨?_, ?_, levels_bids_pairs s hw.1, levels_asks_pairs s hw.2,
    fun dep => ⟨rfl, rfl⟩⟩
  · rw [levels_bids_prices]
    exact List.sorted_insertionSort _ _
  · rw [levels_asks_prices]
    exact List.sorted_insertionSort _ _

/-- C6 witness: the spec's example — bids `{100:1, 105:2, 98:3}` list prices
`[105,100,98]`, the equivalent ask side lists `[98,100,105]`, and a depth
truncates the sequence. -/
theorem C6_witness :
    WF c6S ∧
    (c6S.levels "bids" none).map Level.price = [105, 100, 98] ∧
    (c6S.levels "asks" none).map Level.price = [98, 100, 105] ∧
    ((c6S.levels "bids" none).map (fun l => (l.price, l.size))).Perm c6S.bids ∧
    c6S.levels "bids" (some 2) = (c6S.levels "bids" none).take 2 := by
  have h := C6_levels_sorted_view c6S ⟨by decide, by decide⟩
  exact ⟨⟨by decide, by decide⟩, by decide, by decide, h.2.2.1,
    (h.2.2.2.2 2).1⟩

/-! ### Well-formedness is preserved -/

theorem applyLevel_WF (book : Book) (lvl : String × String) (b' : Book)
    (hnd : (dictKeys book).Nodup) (h : applyLevel book lvl = some b') :
    (dictKeys b').Nodup := by
  unfold applyLevel at h
  cases hp : parseRat lvl.1 with
  | none =>
      cases hs : parseRat lvl.2 with
      | none => rw [hp, hs] at h; simp at h
      | some sz => rw [hp, hs] at h; simp at h
  | some p =>
      cases hs : parseRat lvl.2 with
      | none => rw [hp, hs] at h; simp at h
      | some sz =>
          rw [hp, hs] at h
          have h' : (if sz = 0 then some (dictPop book p)
              else some (dictSet book p sz)) = some b' := h
          by_cases hz : sz = 0
          · rw [if_pos hz] at h'
            cases Option.some.inj h'
            exact nodup_dictKeys_pop book p hnd
          · rw [if_neg hz] at h'
            cases Option.some.inj h'
            exact nodup_dictKeys_set book p sz hnd

theorem applyLevels_WF (lvls : List (String × String)) :
    ∀ book b' : Book, (dictKeys book).Nodup →
      applyLevels book lvls = some b' → (dictKeys b').Nodup := by
  induction lvls with
  | nil =>
      intro book b' hnd h
      cases Option.some.inj h
      exact hnd
  | cons l rest ih =>
      intro book b' hnd h
      simp only [applyLevels] at h
      cases hl : applyLevel book l with
      | none => rw [hl] at h; simp at h
      | some b1 =>
          rw [hl] at h
          exact ih b1 b' (applyLevel_WF book l b1 hnd hl) h

/-- `process_message` preserves unique price keys; since `init` trivially
satisfies `WF`, every reachable engine state does. -/
theorem process_message_WF (s : OSSOrderBookCache) (m : Msg)
    (s' : OSSOrderBookCache) (hw : WF s) (hp : s.process_message m = some s') :
    WF s' := by
  rcases process_message_cases s m s' hp with
    rfl | ⟨d, hd, ht, hsym, ⟨hsnap, hs⟩ | ⟨hdelta, hs⟩⟩
  · exact hw
  · obtain ⟨nb, na, hb, ha, rfl⟩ := applySnapshotMsg_inv s d s' hs
    unfold WF
    constructor
    · rw [(update_seq_books _ d.seqNum d.prevSeqNum).1]
      exact applyLevels_WF _ [] nb (by simp [dictKeys]) hb
    · rw [(update_seq_books _ d.seqNum d.prevSeqNum).2]
      exact applyLevels_WF _ [] na (by simp [dictKeys]) ha
  · obtain ⟨nb, na, hb, ha, rfl⟩ := applyDeltaMsg_inv s d s' hs
    unfold WF
    constructor
    · rw [(update_seq_books _ d.seqNum d.prevSeqNum).1]
      exact applyLevels_WF _ s.bids nb hw.1 hb
    · rw [(update_seq_books _ d.seqNum d.prevSeqNum).2]
      exact applyLevels_WF _ s.asks na hw.2 ha
